import Mathlib

/-
Verification development for the llama-cpp-deepsearch repository.

Embedded source files:
  - src/src/ollama_deep_researcher/llama_cpp.py  (ChatLlamaCpp provider adapter)
  - src/src/ollama_deep_researcher/state.py      (SummaryState data model)
  - src/app.py                                   (config persistence, event-stream consumer)

The research graph module (ollama_deep_researcher/graph.py, imported by app.py)
is not part of the sources; its nodes and routing are modelled from the spec
where a claim needs them, and each such definition is marked
"Modelled from the spec:".
-/

set_option linter.unusedVariables false

namespace DeepResearch

/- Python string helpers over explicit character lists.
   Python str.find / str.rfind return -1 when the character is absent,
   so these return Int with the same sentinel convention. -/

def findAux : List Char → Char → Nat → Int
  | [], _, _ => -1
  | c :: cs, t, i => if c = t then Int.ofNat i else findAux cs t (i + 1)

/-- Model of Python str.find for a single character: index of the first
occurrence, or -1. -/
def pyFind (s : List Char) (t : Char) : Int := findAux s t 0

def rfindAux : List Char → Char → Nat → Int → Int
  | [], _, _, acc => acc
  | c :: cs, t, i, acc => rfindAux cs t (i + 1) (if c = t then Int.ofNat i else acc)

/-- Model of Python str.rfind for a single character: index of the last
occurrence, or -1. -/
def pyRFind (s : List Char) (t : Char) : Int := rfindAux s t 0 (-1)

/-- Model of Python str.rstrip for one strip character. -/
def pyRStrip (s : List Char) (t : Char) : List Char :=
  (s.reverse.dropWhile (fun c => c = t)).reverse

/- A model of Python json.loads validity (the standard library is not part of
   the repository, so only success/failure of parsing is modelled; the checker
   below is a recursive-descent JSON recogniser). -/

def isWsChar (c : Char) : Bool := c = ' ' || c = '\t' || c = '\n' || c = '\r'

def skipWs : List Char → List Char
  | [] => []
  | c :: cs => if isWsChar c then skipWs cs else c :: cs

def isHexChar (c : Char) : Bool :=
  c.isDigit || ('a' ≤ c && c ≤ 'f') || ('A' ≤ c && c ≤ 'F')

def parseStringBody : Nat → List Char → Option (List Char)
  | 0, _ => none
  | _ + 1, [] => none
  | f + 1, c :: cs =>
    if c = '"' then some cs
    else if c = '\\' then
      match cs with
      | [] => none
      | e :: cs2 =>
        if e = 'u' then
          match cs2 with
          | a :: b :: c2 :: d :: rest =>
            if isHexChar a && isHexChar b && isHexChar c2 && isHexChar d then
              parseStringBody f rest
            else none
          | _ => none
        else if e = '"' || e = '\\' || e = '/' || e = 'b' || e = 'f' ||
                e = 'n' || e = 'r' || e = 't' then
          parseStringBody f cs2
        else none
    else if c.val < 32 then none
    else parseStringBody f cs

def parseExpPart : List Char → Option (List Char)
  | s =>
    match s with
    | c :: r =>
      if c = 'e' || c = 'E' then
        let r2 := match r with
          | '+' :: r1 => r1
          | '-' :: r1 => r1
          | r1 => r1
        match r2 with
        | d :: _ =>
          if d.isDigit then some (r2.dropWhile Char.isDigit) else none
        | [] => none
      else some s
    | [] => some s

def parseFracExp (s : List Char) : Option (List Char) :=
  match s with
  | '.' :: r =>
    match r with
    | d :: _ =>
      if d.isDigit then parseExpPart (r.dropWhile Char.isDigit) else none
    | [] => none
  | _ => parseExpPart s

def parseNumber (s : List Char) : Option (List Char) :=
  let s1 := match s with
    | '-' :: r => r
    | _ => s
  match s1 with
  | '0' :: r => parseFracExp r
  | c :: r =>
    if c.isDigit then parseFracExp (r.dropWhile Char.isDigit) else none
  | [] => none

mutual

def parseVal : Nat → List Char → Option (List Char)
  | 0, _ => none
  | f + 1, s =>
    match skipWs s with
    | [] => none
    | '{' :: r =>
      (match skipWs r with
       | '}' :: r2 => some r2
       | r2 => parseMembers f r2)
    | '[' :: r =>
      (match skipWs r with
       | ']' :: r2 => some r2
       | r2 => parseItems f r2)
    | '"' :: r => parseStringBody (r.length + 1) r
    | 't' :: 'r' :: 'u' :: 'e' :: r => some r
    | 'f' :: 'a' :: 'l' :: 's' :: 'e' :: r => some r
    | 'n' :: 'u' :: 'l' :: 'l' :: r => some r
    | s2 => parseNumber s2

def parseMembers : Nat → List Char → Option (List Char)
  | 0, _ => none
  | f + 1, s =>
    match skipWs s with
    | '"' :: r =>
      (match parseStringBody (r.length + 1) r with
       | none => none
       | some r2 =>
         match skipWs r2 with
         | ':' :: r3 =>
           (match parseVal f r3 with
            | none => none
            | some r4 =>
              match skipWs r4 with
              | ',' :: r5 => parseMembers f r5
              | '}' :: r5 => some r5
              | _ => none)
         | _ => none)
    | _ => none

def parseItems : Nat → List Char → Option (List Char)
  | 0, _ => none
  | f + 1, s =>
    match parseVal f s with
    | none => none
    | some r =>
      match skipWs r with
      | ',' :: r2 => parseItems f r2
      | ']' :: r2 => some r2
      | _ => none

end

/-- Model of json.loads succeeding on the given text: the whole text is one
JSON value, up to surrounding whitespace. -/
def jsonLoadsOk (s : List Char) : Bool :=
  match parseVal (2 * s.length + 2) s with
  | some r => (skipWs r).isEmpty
  | none => false

/- Embedding of src/src/ollama_deep_researcher/llama_cpp.py.
   Python floats are modelled as rationals (no claim computes with them);
   a model response is the already-decoded JSON body of the HTTP reply. -/

/-- Messages from langchain_core (HumanMessage, SystemMessage, AIMessage, and
the fallthrough case carrying message.type). -/
inductive BaseMessage
  | human (content : String)
  | system (content : String)
  | ai (content : String)
  | other (role : String) (content : String)
deriving DecidableEq

/-- Embeds ChatLlamaCpp._convert_message_to_dict (llama_cpp.py lines 51-59):
the resulting {role, content} dict. -/
def convert_message_to_dict : BaseMessage → String × String
  | .human c => ("user", c)
  | .system c => ("system", c)
  | .ai c => ("assistant", c)
  | .other r c => (r, c)

/-- Embeds langchain BaseTool as an opaque record (only its identity matters
to the claims). -/
structure BaseTool where
  name : String
deriving DecidableEq

/-- Embeds the ChatLlamaCpp pydantic model fields (llama_cpp.py lines 18-42)
with their declared defaults. -/
structure ChatLlamaCpp where
  format : Option String := none
  base_url : String := "http://127.0.0.1:8080/v1"
  model : String := "llama-3.2"
  temperature : ℚ := 7 / 10
  top_p : ℚ := 19 / 20
  min_p : ℚ := 1 / 20
  api_key : String := "not-needed"
deriving DecidableEq

/-- Embeds ChatLlamaCpp.bind_tools (llama_cpp.py lines 48-49): returns self. -/
def bind_tools (m : ChatLlamaCpp) (tools : List BaseTool) : ChatLlamaCpp := m

/-- A JSON value placed into the request payload dict. -/
inductive PVal
  | s (v : String)
  | q (v : ℚ)
  | msgs (v : List (String × String))
  | respFormat (typeField : String)
  | stops (v : List String)
deriving DecidableEq

/-- Embeds the payload dict built in ChatLlamaCpp._generate
(llama_cpp.py lines 71-86), as a key-value list in Python insertion order.
Python truthiness of a float (`self.top_p and self.top_p > 0`) makes the
combined condition equivalent to the value being positive. -/
def buildPayload (m : ChatLlamaCpp) (messages : List BaseMessage)
    (stop : Option (List String)) : List (String × PVal) :=
  [("model", PVal.s m.model),
   ("messages", PVal.msgs (messages.map convert_message_to_dict)),
   ("temperature", PVal.q m.temperature)]
  ++ (if 0 < m.top_p then [("top_p", PVal.q m.top_p)] else [])
  ++ (if 0 < m.min_p then [("min_p", PVal.q m.min_p)] else [])
  ++ (if m.format = some "json" then [("response_format", PVal.respFormat "json_object")] else [])
  ++ (match stop with
      | some l => if l.isEmpty then [] else [("stop", PVal.stops l)]
      | none => [])

/-- One HTTP request as issued by requests.post in _generate
(llama_cpp.py lines 89-96). -/
structure RequestSpec where
  url : String
  headers : List (String × String)
  jsonBody : List (String × PVal)
  timeout : Nat
deriving DecidableEq

/-- Embeds the api_url computation and the keyword arguments of the single
requests.post call (llama_cpp.py lines 68-69 and 89-96). -/
def buildRequest (m : ChatLlamaCpp) (messages : List BaseMessage)
    (stop : Option (List String)) : RequestSpec :=
  { url := String.mk (pyRStrip m.base_url.toList '/') ++ "/chat/completions",
    headers := [("Content-Type", "application/json")],
    jsonBody := buildPayload m messages stop,
    timeout := 180 }

/-- The decoded JSON body of a model reply: result["choices"], each carrying
its message.content. -/
structure HttpResp where
  status : Nat
  choices : List (List Char)
deriving DecidableEq

/-- Outcome of the one HTTP request: a transport failure
(requests.exceptions.RequestException) or a reply. -/
inductive HttpOutcome
  | transportError (msg : String)
  | reply (r : HttpResp)
deriving DecidableEq

/-- Python exceptions that can escape _generate: a generic Exception (raised
explicitly, or re-raised from a RequestException), or the
json.JSONDecodeError raised by json.loads at llama_cpp.py line 113 which the
`except requests.exceptions.RequestException` clause does not catch. -/
inductive PyExc
  | exc (msg : String)
  | jsonDecode
deriving DecidableEq

/-- Embeds the structured-output post-processing of _generate
(llama_cpp.py lines 108-114): find the first brace and the last closing
brace, slice, validate with json.loads. A failing json.loads raises
(modelled as Except.error). jsonOk is the json.loads success oracle. -/
def extractJson (jsonOk : List Char → Bool) (content : List Char) :
    Except Unit (List Char) :=
  let json_start := pyFind content '{'
  let json_end := pyRFind content '}' + 1
  if json_start ≥ 0 ∧ json_end > json_start then
    let json_text := (content.drop json_start.toNat).take (json_end - json_start).toNat
    if jsonOk json_text then Except.ok json_text else Except.error ()
  else Except.ok content

/-- Embeds the response handling of _generate (llama_cpp.py lines 88-117):
transport failure is caught and re-raised as a generic Exception; a non-200
status or an absent/empty choices list raises a generic Exception; with
format == "json" the brace extraction runs, and its json.loads failure
propagates as a JSONDecodeError (not caught by the RequestException
handler). -/
def generateHandle (jsonOk : List Char → Bool) (fmt : Option String)
    (outcome : HttpOutcome) : Except PyExc (List Char) :=
  match outcome with
  | .transportError msg => Except.error (PyExc.exc ("Request failed: " ++ msg))
  | .reply r =>
    if r.status ≠ 200 then
      Except.error (PyExc.exc ("API error " ++ toString r.status))
    else
      match r.choices with
      | [] => Except.error (PyExc.exc "No choices in response")
      | c :: _ =>
        if fmt = some "json" then
          match extractJson jsonOk c with
          | Except.ok content => Except.ok content
          | Except.error _ => Except.error PyExc.jsonDecode
        else Except.ok c

/-- The AIMessage wrapped in the returned ChatResult (llama_cpp.py
lines 119-120); this backend never populates tool calls. -/
structure AIMessageOut where
  content : List Char
  tool_calls : List String
deriving DecidableEq

/-- Embeds ChatLlamaCpp._generate (llama_cpp.py lines 61-120) as a function
of the single HTTP outcome; the second component is the list of HTTP
requests the call issues (the body contains exactly one requests.post and
no retry loop). -/
def generate (m : ChatLlamaCpp) (messages : List BaseMessage)
    (stop : Option (List String)) (jsonOk : List Char → Bool)
    (outcome : HttpOutcome) : Except PyExc AIMessageOut × List RequestSpec :=
  ((generateHandle jsonOk m.format outcome).map
      (fun c => { content := c, tool_calls := [] }),
   [buildRequest m messages stop])

/- Embedding of the config persistence in src/app.py (lines 14-29).
   A JSON object is modelled as a key-value list in file order; Python dict
   lookup is first-match lookup, and dict.update keeps existing keys in place
   (overwriting their values) and appends new keys in order. -/

def dictLookup {V : Type} (d : List (String × V)) (k : String) : Option V :=
  (d.find? (fun p => p.1 == k)).map Prod.snd

/-- Python dict.update semantics: existing keys keep their position with the
new value; keys only in the update are appended in the update's order. -/
def dictUpdate {V : Type} (d u : List (String × V)) : List (String × V) :=
  d.map (fun p =>
    match dictLookup u p.1 with
    | some v => (p.1, v)
    | none => p)
  ++ u.filter (fun p => (dictLookup d p.1).isNone)

/-- Embeds load_config (app.py lines 14-21): a missing file, or one whose
contents fail to parse (json.JSONDecodeError or IOError), yields the empty
dict; `disk` is none in exactly those cases. -/
def load_config {V : Type} (disk : Option (List (String × V))) :
    List (String × V) :=
  match disk with
  | some d => d
  | none => []

/-- Embeds save_config (app.py lines 24-29): load the existing file, merge
the new mapping into it with dict.update, write the result back. The
returned list is the new on-disk contents. -/
def save_config {V : Type} (disk : Option (List (String × V)))
    (config : List (String × V)) : List (String × V) :=
  dictUpdate (load_config disk) config

/- Model of the research orchestration. The graph module
   (ollama_deep_researcher/graph.py, imported at app.py line 240) is not among
   the sources, so the nodes and routing below are modelled from the spec
   (sections 4.1-4.6); the Session State record and its defaults come from
   src/src/ollama_deep_researcher/state.py. -/

/-- A citation record {title, url} kept in sources_gathered. -/
structure Citation where
  title : String
  url : String
deriving DecidableEq

/-- A search-provider result record {title, url, content}. -/
structure SrcRec where
  title : String
  url : String
  content : String
deriving DecidableEq

/-- Embeds SummaryState (state.py lines 7-17). The Python string fields
default to None and are modelled as the empty string (every node overwrites
them before use); the list and counter defaults are as declared
(empty lists, research_loop_count = 0). -/
structure SummaryState where
  research_topic : String := ""
  search_query : String := ""
  web_research_results : List String := []
  sources_gathered : List Citation := []
  research_loop_count : Nat := 0
  running_summary : String := ""
  last_search_query : String := ""
  last_sources : String := ""
  current_thinking : String := ""
deriving DecidableEq

/-- Fresh Session State for a run, from the state.py field defaults. -/
def initState (topic : String) : SummaryState :=
  { research_topic := topic }

/-- Modelled from the spec: the source merge of the Web Researcher
(section 4.2, step 2, missing graph.py): new {title, url} records are merged
left to right, skipping any whose URL is already present. -/
def mergeSources : List Citation → List Citation → List Citation
  | acc, [] => acc
  | acc, r :: rs =>
    if acc.any (fun a => a.url == r.url) then mergeSources acc rs
    else mergeSources (acc ++ [r]) rs

/-- Modelled from the spec: the numbered, URL-tagged citation block the Web
Researcher appends to web_research_results (section 4.2, step 1, missing
graph.py). -/
def formatSourcesBlock : Nat → List SrcRec → String
  | _, [] => ""
  | i, r :: rs =>
    toString i ++ ". " ++ r.title ++ " (" ++ r.url ++ "): " ++ r.content ++ "\n"
      ++ formatSourcesBlock (i + 1) rs

/-- The node names of the research graph, as consumed by app.py
(lines 250-307). -/
inductive Stage
  | generate_query
  | web_research
  | summarize_sources
  | reflect_on_summary
  | finalize_summary
deriving DecidableEq

/-- One StepEvent: the node that ran and the Session State snapshot after
it. -/
abbrev StepEv : Type := Stage × SummaryState

/-- Modelled from the spec: the Query Generator node effect (section 4.1,
missing graph.py): sets search_query and current_thinking only. -/
def generate_query_node (q think : String) (s : SummaryState) : SummaryState :=
  { s with search_query := q, current_thinking := think }

/-- Modelled from the spec: the Web Researcher node effect (section 4.2,
missing graph.py): appends one citation block, merges sources with
dedup-by-URL, increments research_loop_count by exactly 1, and sets the
progress-reporting fields. -/
def web_research_node (results : List SrcRec) (s : SummaryState) : SummaryState :=
  { s with
    web_research_results :=
      s.web_research_results ++ [formatSourcesBlock 1 results],
    sources_gathered :=
      mergeSources s.sources_gathered (results.map (fun r => ⟨r.title, r.url⟩)),
    research_loop_count := s.research_loop_count + 1,
    last_search_query := s.search_query,
    last_sources := formatSourcesBlock 1 results }

/-- Modelled from the spec: the Summarizer node effect (section 4.3, missing
graph.py): replaces running_summary and current_thinking only. -/
def summarize_node (summary think : String) (s : SummaryState) : SummaryState :=
  { s with running_summary := summary, current_thinking := think }

/-- Modelled from the spec: the Reflection Engine node effect (section 4.4,
missing graph.py): sets search_query and current_thinking only. -/
def reflect_node (q think : String) (s : SummaryState) : SummaryState :=
  { s with search_query := q, current_thinking := think }

/-- The Finalizer's output record {running_summary, sources_gathered}
(spec section 4.6). -/
structure FinalOutput where
  running_summary : String
  sources_gathered : List Citation
deriving DecidableEq

/-- Modelled from the spec: deduplication of the citation list by URL, first
occurrence kept (section 4.6, missing graph.py). -/
def dedupByUrl (l : List Citation) : List Citation :=
  mergeSources [] l

/-- Modelled from the spec: the numbered citation list of the Finalizer, one
line per source in the fixed format (section 4.6, missing graph.py). -/
def renderSources : Nat → List Citation → String
  | _, [] => ""
  | i, c :: cs =>
    toString i ++ ". " ++ c.title ++ ": " ++ c.url ++ "\n"
      ++ renderSources (i + 1) cs

/-- Modelled from the spec: finalize_summary (section 4.6, missing graph.py):
append the deduplicated numbered citation list to the running summary under
the fixed "### Sources:" header, pure in the terminal state. -/
def finalize_summary (s : SummaryState) : FinalOutput :=
  { running_summary :=
      s.running_summary ++ "\n\n### Sources:\n"
        ++ renderSources 1 (dedupByUrl s.sources_gathered),
    sources_gathered := s.sources_gathered }

/-- Modelled from the spec: the environment a run draws on — the oracle
outputs of the model and search capabilities per node invocation, and a
provider-failure oracle (nodeFail i = some msg means the i-th
provider-calling node invocation raises a ProviderError). The Finalizer
makes no provider call (section 4.6), so it has no failure index. -/
structure Env where
  genQuery : String → String × String
  search : Nat → List SrcRec
  summarize : Nat → String × String
  reflect : Nat → String × String
  nodeFail : Nat → Option String

/-- How a run ends: the Finalizer's output, or a terminal error surfaced
out-of-band (spec sections 4.5 and 6). -/
inductive RunEnd
  | success (out : FinalOutput)
  | failure (msg : String)
deriving DecidableEq

/-- Modelled from the spec: the Orchestrator's research cycle loop
(section 4.5, missing graph.py). One iteration runs Web Researcher,
Summarizer and Reflection Engine, emitting one event after each completed
node; after the cycle, research_loop_count >= maxLoops routes to the
Finalizer, otherwise to the next cycle. A provider failure at any node ends
the run with no further events. The fuel argument only bounds recursion;
runResearch supplies enough for the budget. -/
def loopCycles (env : Env) (maxLoops : Nat) :
    Nat → Nat → SummaryState → List StepEv × RunEnd
  | 0, _, _ => ([], RunEnd.failure "loop fuel exhausted")
  | f + 1, idx, s =>
    match env.nodeFail idx with
    | some msg => ([], RunEnd.failure msg)
    | none =>
      let s1 := web_research_node (env.search idx) s
      match env.nodeFail (idx + 1) with
      | some msg => ([(Stage.web_research, s1)], RunEnd.failure msg)
      | none =>
        let s2 := summarize_node (env.summarize (idx + 1)).1
          (env.summarize (idx + 1)).2 s1
        match env.nodeFail (idx + 2) with
        | some msg =>
          ([(Stage.web_research, s1), (Stage.summarize_sources, s2)],
           RunEnd.failure msg)
        | none =>
          let s3 := reflect_node (env.reflect (idx + 2)).1
            (env.reflect (idx + 2)).2 s2
          let cycleEvs := [(Stage.web_research, s1),
            (Stage.summarize_sources, s2), (Stage.reflect_on_summary, s3)]
          if maxLoops ≤ s3.research_loop_count then
            let out := finalize_summary s3
            (cycleEvs ++ [(Stage.finalize_summary,
              { s3 with running_summary := out.running_summary })],
             RunEnd.success out)
          else
            let rest := loopCycles env maxLoops f (idx + 3) s3
            (cycleEvs ++ rest.1, rest.2)

/-- Modelled from the spec: one research run (sections 4.5 and 6, missing
graph.py): fresh Session State from the topic, Query Generator once, then
the cycle loop under the configured budget. Returns the finite event
sequence in node-execution order and the run's end. -/
def runResearch (env : Env) (maxLoops : Nat) (topic : String) :
    List StepEv × RunEnd :=
  match env.nodeFail 0 with
  | some msg => ([], RunEnd.failure msg)
  | none =>
    let s1 := generate_query_node (env.genQuery topic).1
      (env.genQuery topic).2 (initState topic)
    let rest := loopCycles env maxLoops maxLoops 1 s1
    ((Stage.generate_query, s1) :: rest.1, rest.2)

/- Embedding of the event-stream consumer in src/app.py (lines 242-320). -/

/-- One entry of st.session_state.research_steps as built by the loop in
app.py lines 250-304; fields a stage does not set are the empty string
(Python dict.get default). -/
structure AppStep where
  stage : String
  title : String
  thinking : String
  query : String
  sources : String
  summary : String
deriving DecidableEq

/-- Embeds the per-chunk step construction of app.py lines 250-304: the four
non-final stages append a step record; a finalize_summary chunk appends
nothing (it is captured as final_result instead, line 306-307). -/
def stepOfChunk : StepEv → Option AppStep
  | (Stage.generate_query, d) =>
    some { stage := "generate_query", title := "🔍 Generating Search Query",
           thinking := d.current_thinking, query := d.search_query,
           sources := "", summary := "" }
  | (Stage.web_research, d) =>
    some { stage := "web_research",
           title := "🌐 Web Search (Loop " ++ toString d.research_loop_count ++ ")",
           thinking := d.current_thinking, query := d.last_search_query,
           sources := d.last_sources, summary := "" }
  | (Stage.summarize_sources, d) =>
    some { stage := "summarize_sources", title := "📝 Summarizing Sources",
           thinking := d.current_thinking, query := "",
           sources := "", summary := d.running_summary }
  | (Stage.reflect_on_summary, d) =>
    some { stage := "reflect_on_summary",
           title := "🧠 Reflecting on Knowledge Gaps",
           thinking := d.current_thinking, query := d.search_query,
           sources := "", summary := "" }
  | (Stage.finalize_summary, _) => none

/-- One iteration of the chunk loop of app.py lines 246-309: a non-final
chunk appends its step; a finalize_summary chunk overwrites final_result
with its payload. -/
def procStep (acc : List AppStep × Option FinalOutput) (ev : StepEv) :
    List AppStep × Option FinalOutput :=
  match stepOfChunk ev with
  | some st => (acc.1 ++ [st], acc.2)
  | none =>
    (acc.1, some { running_summary := ev.2.running_summary,
                   sources_gathered := ev.2.sources_gathered })

/-- Embeds the chunk loop of app.py lines 246-309 over the whole event
sequence. -/
def processChunks (evs : List StepEv) : List AppStep × Option FinalOutput :=
  evs.foldl procStep ([], none)

/-- The session fields app.py sets when a run ends (lines 311-318). -/
structure AppResult where
  steps : List AppStep
  research_result : Option FinalOutput
  research_status : String
  error_message : Option String
deriving DecidableEq

/-- Embeds the end of the try block and the except handler of app.py
lines 242-318: a stream consumed to the end sets research_result from the
captured final chunk and status "complete"; an exception sets status
"error" with the message, and research_result is never set. -/
def processRun (evs : List StepEv) (e : RunEnd) : AppResult :=
  match e with
  | RunEnd.success _ =>
    { steps := (processChunks evs).1,
      research_result := (processChunks evs).2,
      research_status := "complete",
      error_message := none }
  | RunEnd.failure msg =>
    { steps := (processChunks evs).1,
      research_result := none,
      research_status := "error",
      error_message := some msg }

/- Invariant chains over the event sequence: each predicate relates one
   event's snapshot to the snapshot before it, and the chain threads them
   through the whole sequence. -/

/-- Loop-counter step invariant (claim C6): the snapshot keeps
len(web_research_results) == research_loop_count; a web_research event
increments the counter by exactly 1 and appends exactly one result block,
any other event leaves both untouched. -/
def counterStepOk (p : SummaryState) (e : StepEv) : Prop :=
  e.2.web_research_results.length = e.2.research_loop_count ∧
  (if e.1 = Stage.web_research then
     e.2.research_loop_count = p.research_loop_count + 1 ∧
       ∃ b, e.2.web_research_results = p.web_research_results ++ [b]
   else
     e.2.research_loop_count = p.research_loop_count ∧
       e.2.web_research_results = p.web_research_results)

/-- Threads counterStepOk through an event sequence. -/
def counterChain : SummaryState → List StepEv → Prop
  | _, [] => True
  | p, e :: es => counterStepOk p e ∧ counterChain e.2 es

/-- Sources step invariant (claim C5): sources_gathered only grows by a
suffix, its URLs stay pairwise distinct, and a URL already present keeps
its first-seen record. -/
def sourcesStepOk (p : SummaryState) (e : StepEv) : Prop :=
  (∃ t, p.sources_gathered ++ t = e.2.sources_gathered) ∧
  (e.2.sources_gathered.map Citation.url).Nodup ∧
  (∀ u c, p.sources_gathered.find? (fun x => x.url == u) = some c →
    e.2.sources_gathered.find? (fun x => x.url == u) = some c)

/-- Threads sourcesStepOk through an event sequence. -/
def sourcesChain : SummaryState → List StepEv → Prop
  | _, [] => True
  | p, e :: es => sourcesStepOk p e ∧ sourcesChain e.2 es

/- Concrete inputs used by the witnesses below. -/

/-- A model reply whose brace-delimited substring is not valid JSON
(an unquoted object key), used as the failing input for claim C2. -/
def c2BadReply : List Char :=
  "Here is the query: \x7bquery: quantum computing\x7d hope it helps".toList

/-- The demo reply for the claim C3 witness: first brace at index 3, last
closing brace at index 9, the slice between them valid JSON. -/
def c3Demo : List Char := "ok \x7b\x22a\x22:1\x7d!".toList

/-- A concrete failure-free run environment. -/
def demoEnv : Env :=
  { genQuery := fun t => (t, "think"),
    search := fun _ => [{ title := "T", url := "u", content := "c" }],
    summarize := fun _ => ("sum", "sthink"),
    reflect := fun _ => ("followup", "rthink"),
    nodeFail := fun _ => none }

/-- A run environment whose third node invocation (the Summarizer of the
first cycle) raises a provider failure. -/
def failEnv : Env :=
  { demoEnv with nodeFail := fun i => if i = 2 then some "boom" else none }

/-- The output carried by a successful run end (a placeholder on failure). -/
def endOutput : RunEnd → FinalOutput
  | RunEnd.success out => out
  | RunEnd.failure _ => { running_summary := "", sources_gathered := [] }

/- Theorems. First, the configuration persistence (claim C10). -/

theorem dictLookup_cons {V : Type} (q : String × V) (d : List (String × V))
    (k : String) :
    dictLookup (q :: d) k = if q.1 == k then some q.2 else dictLookup d k := by
  simp only [dictLookup, List.find?]
  cases h : (q.1 == k) <;> simp [h]

theorem dictLookup_append {V : Type} (l₁ l₂ : List (String × V)) (k : String) :
    dictLookup (l₁ ++ l₂) k = (dictLookup l₁ k).or (dictLookup l₂ k) := by
  induction l₁ with
  | nil => simp [dictLookup, Option.or]
  | cons q l ih =>
    rw [List.cons_append, dictLookup_cons, dictLookup_cons]
    cases h : (q.1 == k) <;> simp [h, ih, Option.or]

theorem dictLookup_map_update {V : Type} (u d : List (String × V)) (k : String) :
    dictLookup (d.map (fun p =>
        match dictLookup u p.1 with
        | some v => (p.1, v)
        | none => p)) k
      = (dictLookup d k).map (fun v => (dictLookup u k).getD v) := by
  induction d with
  | nil => simp [dictLookup]
  | cons q d ih =>
    have hfst : (match dictLookup u q.1 with
        | some v => (q.1, v)
        | none => q).1 = q.1 := by
      cases dictLookup u q.1 <;> rfl
    rw [List.map_cons, dictLookup_cons, dictLookup_cons, hfst]
    cases h : (q.1 == k) with
    | false => simp [h, ih]
    | true =>
      have hk : q.1 = k := by
        simpa using h
      subst hk
      cases hu : dictLookup u q.1 <;> simp [h, hu]

theorem dictLookup_filter_not_in {V : Type} (d u : List (String × V))
    (k : String) (hd : dictLookup d k = none) :
    dictLookup (u.filter (fun p => (dictLookup d p.1).isNone)) k
      = dictLookup u k := by
  induction u with
  | nil => rfl
  | cons q u ih =>
    rw [List.filter_cons]
    cases hkeep : (dictLookup d q.1).isNone with
    | true =>
      rw [if_pos rfl, dictLookup_cons, dictLookup_cons, ih]
    | false =>
      have hqk : q.1 ≠ k := by
        intro h
        rw [h, hd] at hkeep
        simp at hkeep
      rw [if_neg (by simp), ih, dictLookup_cons,
        if_neg (by simp [hqk])]

theorem dictUpdate_lookup {V : Type} (d u : List (String × V)) (k : String) :
    dictLookup (dictUpdate d u) k = (dictLookup u k).or (dictLookup d k) := by
  rw [dictUpdate, dictLookup_append, dictLookup_map_update]
  cases hd : dictLookup d k with
  | some v =>
    cases hu : dictLookup u k <;> simp [Option.or, hu]
  | none =>
    rw [dictLookup_filter_not_in d u k hd]
    cases hu : dictLookup u k <;> simp [Option.or]

/-- Claim C10: save_config merges the given mapping into the existing
on-disk config rather than overwriting it — after the merge, a lookup finds
the new mapping's value for its keys and the prior on-disk value for every
other key, and a missing or unparseable existing file is treated as the
empty dict. -/
theorem c10_save_config_merges :
    ∀ (V : Type) (disk : Option (List (String × V)))
      (config : List (String × V)) (k : String),
      dictLookup (save_config disk config) k
        = (dictLookup config k).or (dictLookup (load_config disk) k) ∧
      load_config (none : Option (List (String × V))) = [] := by
  intro V disk config k
  exact ⟨dictUpdate_lookup (load_config disk) config k, rfl⟩

/- Claims about ChatLlamaCpp._generate (llama_cpp.py). -/

/-- Claim C2 (code bug evidence): on a model reply whose extracted brace
substring is not a valid JSON object, _generate does not return normally
with a fallback — the json.loads call at llama_cpp.py line 113 raises a
JSONDecodeError that the `except requests.exceptions.RequestException`
clause does not catch, so the exception escapes _generate and aborts the
run, contradicting the spec's non-fatal ParseError policy. -/
theorem c2_parse_failure_aborts :
    (generate { format := some "json" } [BaseMessage.human "hi"] none
        jsonLoadsOk
        (HttpOutcome.reply { status := 200, choices := [c2BadReply] })).1
      = Except.error PyExc.jsonDecode ∧
    jsonLoadsOk ((c2BadReply.drop 19).take 26) = false := by
  exact ⟨rfl, rfl⟩

/-- Claim C4: _generate issues exactly one HTTP request per call, always
with the explicit finite timeout of 180 seconds, and raises an exception —
without a second request — whenever the transport fails or the status is
not 200. -/
theorem c4_single_request_terminal_error :
    ∀ (m : ChatLlamaCpp) (messages : List BaseMessage)
      (stop : Option (List String)) (jsonOk : List Char → Bool)
      (outcome : HttpOutcome),
      (generate m messages stop jsonOk outcome).2.length = 1 ∧
      (∀ req ∈ (generate m messages stop jsonOk outcome).2,
        req.timeout = 180) ∧
      (∀ msg, outcome = HttpOutcome.transportError msg →
        (generate m messages stop jsonOk outcome).1
          = Except.error (PyExc.exc ("Request failed: " ++ msg))) ∧
      (∀ r, outcome = HttpOutcome.reply r → r.status ≠ 200 →
        (generate m messages stop jsonOk outcome).1
          = Except.error (PyExc.exc ("API error " ++ toString r.status))) := by
  intro m messages stop jsonOk outcome
  refine ⟨rfl, ?_, ?_, ?_⟩
  · intro req hreq
    simp only [generate, List.mem_singleton] at hreq
    subst hreq
    rfl
  · intro msg h
    subst h
    rfl
  · intro r h hne
    subst h
    simp [generate, generateHandle, hne, Except.map]

/-- Witness for claim C4 at a concrete transport failure and a concrete
non-200 reply. -/
theorem c4_single_request_terminal_error_witness :
    (generate ({} : ChatLlamaCpp) [] none jsonLoadsOk
        (HttpOutcome.transportError "connection refused")).1
      = Except.error (PyExc.exc ("Request failed: " ++ "connection refused")) ∧
    (generate ({} : ChatLlamaCpp) [] none jsonLoadsOk
        (HttpOutcome.reply { status := 500, choices := [] })).1
      = Except.error (PyExc.exc ("API error " ++ toString 500)) ∧
    (buildRequest ({} : ChatLlamaCpp) [] none).timeout = 180 := by
  refine ⟨?_, ?_, ?_⟩
  · exact (c4_single_request_terminal_error {} [] none jsonLoadsOk
      (HttpOutcome.transportError "connection refused")).2.2.1
      "connection refused" rfl
  · exact (c4_single_request_terminal_error {} [] none jsonLoadsOk
      (HttpOutcome.reply { status := 500, choices := [] })).2.2.2
      { status := 500, choices := [] } rfl (by decide)
  · exact (c4_single_request_terminal_error {} [] none jsonLoadsOk
      (HttpOutcome.transportError "x")).2.1
      (buildRequest ({} : ChatLlamaCpp) [] none) (by simp [generate])

/-- Claim C9: bind_tools is the identity on the model object — it returns
the receiver unchanged, leaves every subsequent request payload unaffected,
the payload never carries a "tools" key, and a successful _generate result
never carries a native tool call, so parsing tier (a) cannot occur with
this backend. -/
theorem c9_bind_tools_identity :
    ∀ (m : ChatLlamaCpp) (ts : List BaseTool),
      bind_tools m ts = m ∧
      (∀ messages stop jsonOk outcome,
        generate (bind_tools m ts) messages stop jsonOk outcome
          = generate m messages stop jsonOk outcome) ∧
      (∀ messages stop,
        "tools" ∉ (buildPayload m messages stop).map Prod.fst) ∧
      (∀ messages stop jsonOk outcome res,
        (generate m messages stop jsonOk outcome).1 = Except.ok res →
          res.tool_calls = []) := by
  intro m ts
  refine ⟨rfl, fun _ _ _ _ => rfl, ?_, ?_⟩
  · intro messages stop h
    simp only [buildPayload, List.map_append, List.mem_append] at h
    rcases h with ((((h | h) | h) | h) | h)
    · simp at h
    · split at h <;> simp at h
    · split at h <;> simp at h
    · split at h <;> simp at h
    · rcases stop with _ | l
      · simp at h
      · split at h <;> simp at h
  · intro messages stop jsonOk outcome res h
    cases hg : generateHandle jsonOk m.format outcome with
    | error e => simp [generate, hg, Except.map] at h
    | ok c =>
      simp only [generate, hg, Except.map] at h
      cases h
      rfl

/-- Witness for claim C9 at a concrete model, tool list and reply. -/
theorem c9_bind_tools_identity_witness :
    bind_tools ({} : ChatLlamaCpp) [{ name := "search" }] = ({} : ChatLlamaCpp) ∧
    ({ content := "hi".toList, tool_calls := [] } : AIMessageOut).tool_calls = [] := by
  refine ⟨(c9_bind_tools_identity {} [{ name := "search" }]).1, ?_⟩
  exact (c9_bind_tools_identity {} [{ name := "search" }]).2.2.2
    [] none jsonLoadsOk
    (HttpOutcome.reply { status := 200, choices := ["hi".toList] })
    { content := "hi".toList, tool_calls := [] } rfl

/- Index characterizations of the Python find / rfind models, for claim C3. -/

theorem findAux_eq (t : Char) :
    ∀ (s : List Char) (a : Nat), s.get? a = some t →
      (∀ m, m < a → s.get? m ≠ some t) →
      ∀ i, findAux s t i = Int.ofNat (i + a) := by
  intro s
  induction s with
  | nil => intro a ha _ _; simp at ha
  | cons c cs ih =>
    intro a ha hmin i
    cases a with
    | zero =>
      have hc : c = t := by simpa using ha
      simp [findAux, hc]
    | succ a =>
      have hc : c ≠ t := by
        intro h
        exact hmin 0 (Nat.succ_pos a) (by simp [h])
      have ha' : cs.get? a = some t := by simpa using ha
      have hmin' : ∀ m, m < a → cs.get? m ≠ some t := by
        intro m hm h
        exact hmin (m + 1) (Nat.succ_lt_succ hm) (by simpa using h)
      have := ih a ha' hmin' (i + 1)
      simp only [findAux, if_neg hc]
      rw [this]
      congr 1
      omega

theorem findAux_mem (t : Char) :
    ∀ (s : List Char) (i : Nat), 0 ≤ findAux s t i →
      ∃ k, findAux s t i = Int.ofNat (i + k) ∧ s.get? k = some t := by
  intro s
  induction s with
  | nil => intro i h; simp [findAux] at h
  | cons c cs ih =>
    intro i h
    by_cases hc : c = t
    · exact ⟨0, by simp [findAux, hc], by simp [hc]⟩
    · simp only [findAux, if_neg hc] at h ⊢
      obtain ⟨k, hk, hg⟩ := ih (i + 1) h
      exact ⟨k + 1, by rw [hk]; congr 1; omega, by simpa using hg⟩

theorem rfindAux_nomatch (t : Char) :
    ∀ (s : List Char) (i : Nat) (acc : Int),
      (∀ m, m < s.length → s.get? m ≠ some t) →
      rfindAux s t i acc = acc := by
  intro s
  induction s with
  | nil => intro i acc _; rfl
  | cons c cs ih =>
    intro i acc hno
    have hc : c ≠ t := by
      intro h
      exact hno 0 (by simp) (by simp [h])
    simp only [rfindAux, if_neg hc]
    exact ih (i + 1) acc (fun m hm h =>
      hno (m + 1) (by simpa using Nat.succ_lt_succ hm) (by simpa using h))

theorem rfindAux_eq (t : Char) :
    ∀ (s : List Char) (b : Nat), s.get? b = some t →
      (∀ m, m < s.length → b < m → s.get? m ≠ some t) →
      ∀ (i : Nat) (acc : Int), rfindAux s t i acc = Int.ofNat (i + b) := by
  intro s
  induction s with
  | nil => intro b hb _ _ _; simp at hb
  | cons c cs ih =>
    intro b hb hmax i acc
    cases b with
    | zero =>
      have hc : c = t := by simpa using hb
      simp only [rfindAux, if_pos hc]
      have hno : ∀ m, m < cs.length → cs.get? m ≠ some t := by
        intro m hm h
        exact hmax (m + 1) (by simpa using Nat.succ_lt_succ hm)
          (Nat.succ_pos m) (by simpa using h)
      rw [rfindAux_nomatch t cs (i + 1) (Int.ofNat i) hno]
      simp
    | succ b =>
      have hb' : cs.get? b = some t := by simpa using hb
      have hmax' : ∀ m, m < cs.length → b < m → cs.get? m ≠ some t := by
        intro m hm hbm h
        exact hmax (m + 1) (by simpa using Nat.succ_lt_succ hm)
          (Nat.succ_lt_succ hbm) (by simpa using h)
      simp only [rfindAux]
      rw [ih b hb' hmax' (i + 1)]
      congr 1
      omega

theorem rfindAux_mem (t : Char) :
    ∀ (s : List Char) (i : Nat) (acc : Int),
      rfindAux s t i acc = acc ∨
      ∃ k, rfindAux s t i acc = Int.ofNat (i + k) ∧ s.get? k = some t := by
  intro s
  induction s with
  | nil => intro i acc; exact Or.inl rfl
  | cons c cs ih =>
    intro i acc
    by_cases hc : c = t
    · simp only [rfindAux, if_pos hc]
      rcases ih (i + 1) (Int.ofNat i) with h | ⟨k, hk, hg⟩
      · exact Or.inr ⟨0, by rw [h]; simp, by simp [hc]⟩
      · exact Or.inr ⟨k + 1, by rw [hk]; congr 1; omega, by simpa using hg⟩
    · simp only [rfindAux, if_neg hc]
      rcases ih (i + 1) acc with h | ⟨k, hk, hg⟩
      · exact Or.inl h
      · exact Or.inr ⟨k + 1, by rw [hk]; congr 1; omega, by simpa using hg⟩

theorem extractJson_of_pair (jsonOk : List Char → Bool) (content : List Char)
    (a b : Nat)
    (ha : content.get? a = some '{')
    (hamin : ∀ m, m < a → content.get? m ≠ some '{')
    (hb : content.get? b = some '}')
    (hbmax : ∀ m, m < content.length → b < m → content.get? m ≠ some '}')
    (hab : a < b)
    (hjson : jsonOk ((content.drop a).take (b + 1 - a)) = true) :
    extractJson jsonOk content = Except.ok ((content.drop a).take (b + 1 - a)) := by
  have hf : pyFind content '{' = Int.ofNat a := by
    have := findAux_eq '{' content a ha hamin 0
    simpa [pyFind] using this
  have hr : pyRFind content '}' = Int.ofNat b := by
    have := rfindAux_eq '}' content b hb hbmax 0 (-1)
    simpa [pyRFind] using this
  have hcond : pyFind content '{' ≥ 0 ∧
      pyRFind content '}' + 1 > pyFind content '{' := by
    rw [hf, hr]
    constructor
    · exact Int.ofNat_nonneg a
    · simp only [Int.ofNat_eq_natCast]
      omega
  have htop : (Int.ofNat b + 1 - Int.ofNat a).toNat = b + 1 - a := by
    simp only [Int.ofNat_eq_natCast]
    omega
  have hsa : (Int.ofNat a).toNat = a := rfl
  rw [extractJson]
  rw [if_pos hcond, hf, hr, hsa, htop, if_pos hjson]

theorem extractJson_of_no_pair (jsonOk : List Char → Bool) (content : List Char)
    (hno : ∀ a b : Nat, a < b → content.get? a = some '{' →
      content.get? b = some '}' → False) :
    extractJson jsonOk content = Except.ok content := by
  have hcond : ¬(pyFind content '{' ≥ 0 ∧
      pyRFind content '}' + 1 > pyFind content '{') := by
    rintro ⟨h1, h2⟩
    obtain ⟨a, hfa, hga⟩ := findAux_mem '{' content 0 h1
    have hfa' : pyFind content '{' = Int.ofNat a := by simpa [pyFind] using hfa
    have hr0 : (0 : Int) ≤ pyRFind content '}' := by
      rw [hfa'] at h2
      omega
    rcases rfindAux_mem '}' content 0 (-1) with h | ⟨b, hfb, hgb⟩
    · rw [pyRFind, h] at hr0
      omega
    · have hfb' : pyRFind content '}' = Int.ofNat b := by simpa [pyRFind] using hfb
      have hab : a ≤ b := by
        rw [hfa', hfb'] at h2
        simp only [Int.ofNat_eq_natCast] at h2
        omega
      have hne : a ≠ b := by
        intro h
        rw [h, hgb] at hga
        simp at hga
      exact hno a b (Nat.lt_of_le_of_ne hab hne) hga hgb
  rw [extractJson, if_neg hcond]

/-- Claim C3: with structured output requested, _generate locates the
substring from the first brace to the last closing brace of the reply; if
that substring is valid JSON it becomes the returned content, and a reply
with no brace pair (no left brace occurring before a closing brace) is
returned unchanged. -/
theorem c3_brace_extraction :
    ∀ (jsonOk : List Char → Bool) (content : List Char),
      (∀ a b : Nat,
        content.get? a = some '{' →
        (∀ m, m < a → content.get? m ≠ some '{') →
        content.get? b = some '}' →
        (∀ m, m < content.length → b < m → content.get? m ≠ some '}') →
        a < b →
        jsonOk ((content.drop a).take (b + 1 - a)) = true →
        generateHandle jsonOk (some "json")
            (HttpOutcome.reply { status := 200, choices := [content] })
          = Except.ok ((content.drop a).take (b + 1 - a))) ∧
      ((∀ a b : Nat, a < b → content.get? a = some '{' →
          content.get? b = some '}' → False) →
        generateHandle jsonOk (some "json")
            (HttpOutcome.reply { status := 200, choices := [content] })
          = Except.ok content) := by
  intro jsonOk content
  constructor
  · intro a b ha hamin hb hbmax hab hjson
    have hx := extractJson_of_pair jsonOk content a b ha hamin hb hbmax hab hjson
    simp [generateHandle, hx]
  · intro hno
    have hx := extractJson_of_no_pair jsonOk content hno
    simp [generateHandle, hx]

/-- Witness for claim C3: the extraction branch at a concrete reply with a
valid embedded JSON object, and the unchanged branch at a reply with no
braces. -/
theorem c3_brace_extraction_witness :
    generateHandle jsonLoadsOk (some "json")
        (HttpOutcome.reply { status := 200, choices := [c3Demo] })
      = Except.ok ((c3Demo.drop 3).take (9 + 1 - 3)) ∧
    generateHandle jsonLoadsOk (some "json")
        (HttpOutcome.reply { status := 200, choices := ["no json here".toList] })
      = Except.ok "no json here".toList := by
  constructor
  · exact (c3_brace_extraction jsonLoadsOk c3Demo).1 3 9
      (by decide) (by decide) (by decide) (by decide) (by decide) (by decide)
  · exact (c3_brace_extraction jsonLoadsOk "no json here".toList).2
      (fun a b hab ha hb => absurd (List.get?_mem ha) (by decide))

/- Properties of the source merge (claims C5 and C7). -/

theorem mergeSources_cons (acc : List Citation) (r : Citation)
    (rs : List Citation) :
    mergeSources acc (r :: rs) =
      if acc.any (fun a => a.url == r.url) then mergeSources acc rs
      else mergeSources (acc ++ [r]) rs := rfl

theorem mergeSources_grows (new : List Citation) :
    ∀ acc, ∃ t, acc ++ t = mergeSources acc new := by
  induction new with
  | nil => intro acc; exact ⟨[], by simp [mergeSources]⟩
  | cons r rs ih =>
    intro acc
    rw [mergeSources_cons]
    cases hany : acc.any (fun a => a.url == r.url) with
    | true =>
      rw [if_pos rfl]
      exact ih acc
    | false =>
      rw [if_neg (by simp)]
      obtain ⟨t, ht⟩ := ih (acc ++ [r])
      exact ⟨r :: t, by rw [← ht]; simp⟩

theorem mergeSources_nodup (new : List Citation) :
    ∀ acc, (acc.map Citation.url).Nodup →
      ((mergeSources acc new).map Citation.url).Nodup := by
  induction new with
  | nil => intro acc h; simpa [mergeSources] using h
  | cons r rs ih =>
    intro acc h
    rw [mergeSources_cons]
    cases hany : acc.any (fun a => a.url == r.url) with
    | true =>
      rw [if_pos rfl]
      exact ih acc h
    | false =>
      rw [if_neg (by simp)]
      apply ih
      rw [List.map_append, List.nodup_append]
      refine ⟨h, by simp, ?_⟩
      intro x hx hx1
      simp only [List.map_cons, List.map_nil, List.mem_singleton] at hx1
      subst hx1
      obtain ⟨a, hamem, haurl⟩ := List.mem_map.1 hx
      have := (List.any_eq_false.1 hany) a hamem
      exact this (by simpa using haurl)

theorem mergeSources_find (u : String) (new : List Citation) :
    ∀ acc,
      (mergeSources acc new).find? (fun x => x.url == u)
        = ((acc.find? (fun x => x.url == u)).or
            (new.find? (fun x => x.url == u))) := by
  induction new with
  | nil =>
    intro acc
    cases h : acc.find? (fun x => x.url == u) <;>
      simp [mergeSources, h, Option.or]
  | cons r rs ih =>
    intro acc
    rw [mergeSources_cons]
    cases hany : acc.any (fun a => a.url == r.url) with
    | true =>
      rw [if_pos rfl, ih acc]
      by_cases hru : (r.url == u) = true
      · have hsome : (acc.find? (fun x => x.url == u)).isSome := by
          rw [List.find?_isSome]
          obtain ⟨a, hamem, hmatch⟩ := List.any_eq_true.1 hany
          refine ⟨a, hamem, ?_⟩
          have h1 : a.url = r.url := by simpa using hmatch
          have h2 : r.url = u := by simpa using hru
          simp [h1, h2]
        obtain ⟨c, hc⟩ := Option.isSome_iff_exists.1 hsome
        rw [hc]
        rfl
      · rw [@List.find?_cons_of_neg _ (fun x : Citation => x.url == u) r rs hru]
    | false =>
      rw [if_neg (by simp), ih (acc ++ [r]), List.find?_append, Option.or_assoc]
      congr 1
      by_cases hru : (r.url == u) = true
      · rw [@List.find?_cons_of_pos _ (fun x : Citation => x.url == u) r [] hru,
          @List.find?_cons_of_pos _ (fun x : Citation => x.url == u) r rs hru]
        rfl
      · rw [@List.find?_cons_of_neg _ (fun x : Citation => x.url == u) r [] hru,
          @List.find?_cons_of_neg _ (fun x : Citation => x.url == u) r rs hru]
        simp [Option.or]

theorem mergeSources_of_disjoint (new : List Citation) :
    ∀ acc, (new.map Citation.url).Nodup →
      (∀ a ∈ acc, ∀ r ∈ new, a.url ≠ r.url) →
      mergeSources acc new = acc ++ new := by
  induction new with
  | nil => intro acc _ _; simp [mergeSources]
  | cons r rs ih =>
    intro acc hnd hdisj
    simp only [List.map_cons, List.nodup_cons] at hnd
    rw [mergeSources_cons]
    have hany : acc.any (fun a => a.url == r.url) = false := by
      rw [List.any_eq_false]
      intro a hamem
      simpa using hdisj a hamem r (List.mem_cons_self r rs)
    rw [if_neg (by simp [hany])]
    have hdisj2 : ∀ a ∈ acc ++ [r], ∀ x ∈ rs, a.url ≠ x.url := by
      intro a hamem x hxmem
      rcases List.mem_append.1 hamem with ha | ha
      · exact hdisj a ha x (List.mem_cons_of_mem r hxmem)
      · have ha2 : a = r := by simpa using ha
        subst ha2
        intro hurl
        exact hnd.1 (by rw [hurl]; exact List.mem_map_of_mem Citation.url hxmem)
    rw [ih (acc ++ [r]) hnd.2 hdisj2]
    simp

/- Per-event invariant steps. -/

theorem counterStepOk_web (rs : List SrcRec) (s : SummaryState)
    (h : s.web_research_results.length = s.research_loop_count) :
    counterStepOk s (Stage.web_research, web_research_node rs s) := by
  refine ⟨by simp [web_research_node, h], ?_⟩
  rw [if_pos rfl]
  exact ⟨rfl, ⟨formatSourcesBlock 1 rs, rfl⟩⟩

theorem counterStepOk_same (st : Stage) (s s2 : SummaryState)
    (hst : ¬st = Stage.web_research)
    (hc : s2.research_loop_count = s.research_loop_count)
    (hw : s2.web_research_results = s.web_research_results)
    (h : s.web_research_results.length = s.research_loop_count) :
    counterStepOk s (st, s2) := by
  refine ⟨by rw [hw, hc]; exact h, ?_⟩
  rw [if_neg hst]
  exact ⟨hc, hw⟩

theorem sourcesStepOk_web (rs : List SrcRec) (s : SummaryState)
    (h : (s.sources_gathered.map Citation.url).Nodup) :
    sourcesStepOk s (Stage.web_research, web_research_node rs s) := by
  refine ⟨?_, ?_, ?_⟩
  · exact mergeSources_grows _ s.sources_gathered
  · exact mergeSources_nodup _ s.sources_gathered h
  · intro u c hc
    show (mergeSources s.sources_gathered _).find? _ = some c
    rw [mergeSources_find u _ s.sources_gathered, hc]
    rfl

theorem sourcesStepOk_same (st : Stage) (s s2 : SummaryState)
    (heq : s2.sources_gathered = s.sources_gathered)
    (h : (s.sources_gathered.map Citation.url).Nodup) :
    sourcesStepOk s (st, s2) := by
  refine ⟨⟨[], ?_⟩, ?_, ?_⟩
  · simp [heq]
  · simpa [heq] using h
  · intro u c hc
    simpa [heq] using hc

/- The invariant chains hold along every run, including failing ones. -/

theorem loopCycles_counterChain (env : Env) (maxLoops : Nat) :
    ∀ (f idx : Nat) (s : SummaryState),
      s.web_research_results.length = s.research_loop_count →
      counterChain s (loopCycles env maxLoops f idx s).1 := by
  intro f
  induction f with
  | zero =>
    intro idx s h
    simp [loopCycles, counterChain]
  | succ f ih =>
    intro idx s h
    rw [loopCycles]
    have hinv1 : (web_research_node (env.search idx) s).web_research_results.length
        = (web_research_node (env.search idx) s).research_loop_count := by
      simp [web_research_node, h]
    cases h0 : env.nodeFail idx with
    | some msg => exact trivial
    | none =>
      dsimp only
      cases h1 : env.nodeFail (idx + 1) with
      | some msg =>
        exact ⟨counterStepOk_web _ s h, trivial⟩
      | none =>
        dsimp only
        cases h2 : env.nodeFail (idx + 2) with
        | some msg =>
          exact ⟨counterStepOk_web _ s h,
            counterStepOk_same _ _ _ (by simp) rfl rfl hinv1, trivial⟩
        | none =>
          dsimp only
          by_cases hdone : maxLoops ≤ (reflect_node (env.reflect (idx + 2)).1
              (env.reflect (idx + 2)).2 (summarize_node (env.summarize (idx + 1)).1
                (env.summarize (idx + 1)).2
                (web_research_node (env.search idx) s))).research_loop_count
          · rw [if_pos hdone]
            exact ⟨counterStepOk_web _ s h,
              counterStepOk_same _ _ _ (by simp) rfl rfl hinv1,
              counterStepOk_same _ _ _ (by simp) rfl rfl hinv1,
              counterStepOk_same _ _ _ (by simp) rfl rfl hinv1, trivial⟩
          · rw [if_neg hdone]
            exact ⟨counterStepOk_web _ s h,
              counterStepOk_same _ _ _ (by simp) rfl rfl hinv1,
              counterStepOk_same _ _ _ (by simp) rfl rfl hinv1,
              ih (idx + 3) _ hinv1⟩

theorem loopCycles_sourcesChain (env : Env) (maxLoops : Nat) :
    ∀ (f idx : Nat) (s : SummaryState),
      (s.sources_gathered.map Citation.url).Nodup →
      sourcesChain s (loopCycles env maxLoops f idx s).1 := by
  intro f
  induction f with
  | zero =>
    intro idx s h
    simp [loopCycles, sourcesChain]
  | succ f ih =>
    intro idx s h
    rw [loopCycles]
    have hnd1 : ((web_research_node (env.search idx) s).sources_gathered.map
        Citation.url).Nodup :=
      mergeSources_nodup _ s.sources_gathered h
    cases h0 : env.nodeFail idx with
    | some msg => exact trivial
    | none =>
      dsimp only
      cases h1 : env.nodeFail (idx + 1) with
      | some msg =>
        exact ⟨sourcesStepOk_web _ s h, trivial⟩
      | none =>
        dsimp only
        cases h2 : env.nodeFail (idx + 2) with
        | some msg =>
          exact ⟨sourcesStepOk_web _ s h,
            sourcesStepOk_same _ _ _ rfl hnd1, trivial⟩
        | none =>
          dsimp only
          by_cases hdone : maxLoops ≤ (reflect_node (env.reflect (idx + 2)).1
              (env.reflect (idx + 2)).2 (summarize_node (env.summarize (idx + 1)).1
                (env.summarize (idx + 1)).2
                (web_research_node (env.search idx) s))).research_loop_count
          · rw [if_pos hdone]
            exact ⟨sourcesStepOk_web _ s h,
              sourcesStepOk_same _ _ _ rfl hnd1,
              sourcesStepOk_same _ _ _ rfl hnd1,
              sourcesStepOk_same _ _ _ rfl hnd1, trivial⟩
          · rw [if_neg hdone]
            exact ⟨sourcesStepOk_web _ s h,
              sourcesStepOk_same _ _ _ rfl hnd1,
              sourcesStepOk_same _ _ _ rfl hnd1,
              ih (idx + 3) _ hnd1⟩

/-- Claim C6: in a fresh Session State the loop counter is 0 and the results
list empty (state.py defaults), and along every run — at every observation
point — len(web_research_results) equals research_loop_count, the counter
rises by exactly 1 at each completed Web-Researcher invocation and is
otherwise unchanged (never decremented), and web_research_results only ever
grows by exactly one entry per completed search cycle. -/
theorem c6_loop_counter_results_invariant :
    ∀ (env : Env) (maxLoops : Nat) (topic : String),
      (initState topic).research_loop_count = 0 ∧
      (initState topic).web_research_results = [] ∧
      counterChain (initState topic) (runResearch env maxLoops topic).1 := by
  intro env maxLoops topic
  refine ⟨rfl, rfl, ?_⟩
  rw [runResearch]
  cases h0 : env.nodeFail 0 with
  | some msg => exact trivial
  | none =>
    dsimp only
    refine ⟨?_, ?_⟩
    · exact counterStepOk_same _ _ _ (by simp) rfl rfl rfl
    · exact loopCycles_counterChain env maxLoops maxLoops 1 _ rfl

/-- Claim C5: across every step of a run, sources_gathered never shrinks
(each snapshot extends the previous one), never contains two entries with
the same URL, and a URL already present keeps its first-seen record; and
the merge itself resolves each URL to the first record seen for it (an
existing entry wins over any new one, and among new records the first
occurrence wins). -/
theorem c5_sources_dedup_invariant :
    ∀ (env : Env) (maxLoops : Nat) (topic : String),
      sourcesChain (initState topic) (runResearch env maxLoops topic).1 ∧
      (∀ (acc new : List Citation) (u : String),
        (mergeSources acc new).find? (fun x => x.url == u)
          = ((acc.find? (fun x => x.url == u)).or
              (new.find? (fun x => x.url == u)))) := by
  intro env maxLoops topic
  constructor
  · rw [runResearch]
    cases h0 : env.nodeFail 0 with
    | some msg => exact trivial
    | none =>
      dsimp only
      refine ⟨?_, ?_⟩
      · exact sourcesStepOk_same _ _ _ rfl (by simp [initState])
      · exact loopCycles_sourcesChain env maxLoops maxLoops 1 _
          (by simp [generate_query_node, initState])
  · intro acc new u
    exact mergeSources_find u new acc

/- The loop executes exactly the budgeted number of cycles (claim C1). -/

theorem loopCycles_success (env : Env) (maxLoops : Nat)
    (hfail : ∀ i, env.nodeFail i = none) :
    ∀ (f idx : Nat) (s : SummaryState),
      s.research_loop_count + f = maxLoops → 0 < f →
      ∃ evs s3,
        loopCycles env maxLoops f idx s
            = (evs, RunEnd.success (finalize_summary s3)) ∧
        s3.research_loop_count = maxLoops ∧
        evs.countP (fun ev => ev.1 == Stage.web_research) = f := by
  intro f
  induction f with
  | zero =>
    intro idx s hsum hpos
    omega
  | succ f ih =>
    intro idx s hsum hpos
    rw [loopCycles, hfail idx]
    dsimp only
    rw [hfail (idx + 1)]
    dsimp only
    rw [hfail (idx + 2)]
    dsimp only
    have hcount3 : (reflect_node (env.reflect (idx + 2)).1 (env.reflect (idx + 2)).2
        (summarize_node (env.summarize (idx + 1)).1 (env.summarize (idx + 1)).2
          (web_research_node (env.search idx) s))).research_loop_count
        = s.research_loop_count + 1 := rfl
    cases f with
    | zero =>
      rw [if_pos (by rw [hcount3]; omega)]
      refine ⟨_, _, rfl, ?_, ?_⟩
      · rw [hcount3]
        omega
      · rfl
    | succ g =>
      rw [if_neg (by rw [hcount3]; omega)]
      obtain ⟨evs, s3, heq, hcnt, hcp⟩ := ih (idx + 3)
        (reflect_node (env.reflect (idx + 2)).1 (env.reflect (idx + 2)).2
          (summarize_node (env.summarize (idx + 1)).1 (env.summarize (idx + 1)).2
            (web_research_node (env.search idx) s)))
        (by
          rw [hcount3]
          omega)
        (Nat.succ_pos g)
      rw [heq]
      dsimp only
      refine ⟨_, s3, rfl, hcnt, ?_⟩
      rw [List.countP_append, hcp]
      show 1 + (g + 1) = g + 1 + 1
      omega

/-- Claim C1: with a loop budget N >= 1 and no provider failure, a run ends
in the Finalizer's success output with research_loop_count exactly N at
finalization, and the event sequence contains exactly N Web-Researcher
invocations — never an (N+1)th. -/
theorem c1_loop_budget_exact :
    ∀ (env : Env) (maxLoops : Nat) (topic : String),
      (∀ i, env.nodeFail i = none) → 1 ≤ maxLoops →
      ∃ evs s3,
        runResearch env maxLoops topic
            = (evs, RunEnd.success (finalize_summary s3)) ∧
        s3.research_loop_count = maxLoops ∧
        evs.countP (fun ev => ev.1 == Stage.web_research) = maxLoops := by
  intro env maxLoops topic hfail hmax
  rw [runResearch, hfail 0]
  dsimp only
  obtain ⟨evs, s3, heq, hcnt, hcp⟩ := loopCycles_success env maxLoops hfail
    maxLoops 1
    (generate_query_node (env.genQuery topic).1 (env.genQuery topic).2
      (initState topic))
    (by
      show 0 + maxLoops = maxLoops
      omega)
    (by omega)
  rw [heq]
  dsimp only
  refine ⟨_, s3, rfl, hcnt, ?_⟩
  rw [List.countP_cons, hcp]
  rfl

/-- Witness for claim C1: a failure-free run with budget 2 has exactly two
web_research events. -/
theorem c1_loop_budget_exact_witness :
    (runResearch demoEnv 2 "t").1.countP
        (fun ev => ev.1 == Stage.web_research) = 2 := by
  obtain ⟨evs, s3, heq, hcnt, hcp⟩ :=
    c1_loop_budget_exact demoEnv 2 "t" (fun i => rfl) (by omega)
  rw [heq]
  exact hcp

/-- Claim C7: the Finalizer is a pure function of the terminal state —
calling it twice on the same state yields identical output — and its output
keeps sources_gathered unchanged while appending to running_summary the
numbered citation list under the fixed "### Sources:" header, rendered from
the URL-deduplicated source list (which on an already-deduplicated run
state is the source list itself). -/
theorem c7_finalizer_pure_idempotent :
    ∀ (s : SummaryState),
      finalize_summary s = finalize_summary s ∧
      (finalize_summary s).sources_gathered = s.sources_gathered ∧
      (finalize_summary s).running_summary
        = s.running_summary ++ "\n\n### Sources:\n"
          ++ renderSources 1 (dedupByUrl s.sources_gathered) ∧
      ((dedupByUrl s.sources_gathered).map Citation.url).Nodup ∧
      ((s.sources_gathered.map Citation.url).Nodup →
        dedupByUrl s.sources_gathered = s.sources_gathered) := by
  intro s
  refine ⟨rfl, rfl, rfl, ?_, ?_⟩
  · exact mergeSources_nodup _ [] (by simp)
  · intro h
    have := mergeSources_of_disjoint s.sources_gathered [] h (by simp)
    simpa [dedupByUrl] using this

/-- Witness for claim C7: deduplication is the identity on a concrete
duplicate-free terminal source list. -/
theorem c7_finalizer_pure_idempotent_witness :
    dedupByUrl [{ title := "A", url := "u1" }, { title := "B", url := "u2" }]
      = [{ title := "A", url := "u1" }, { title := "B", url := "u2" }] :=
  (c7_finalizer_pure_idempotent
    { sources_gathered := [{ title := "A", url := "u1" },
        { title := "B", url := "u2" }] }).2.2.2.2 (by decide)

/- Shape of the event sequence on success and on failure (claim C8). -/

theorem processChunks_concat_final (evs0 : List StepEv) (sF : SummaryState) :
    (processChunks (evs0 ++ [(Stage.finalize_summary, sF)])).2
      = some { running_summary := sF.running_summary,
               sources_gathered := sF.sources_gathered } := by
  rw [processChunks, List.foldl_append]
  rfl

theorem loopCycles_failure_no_finalize (env : Env) (maxLoops : Nat) :
    ∀ (f idx : Nat) (s : SummaryState) (evs : List StepEv) (msg : String),
      loopCycles env maxLoops f idx s = (evs, RunEnd.failure msg) →
      ∀ ev ∈ evs, ev.1 ≠ Stage.finalize_summary := by
  intro f
  induction f with
  | zero =>
    intro idx s evs msg heq
    rw [loopCycles] at heq
    injection heq with h1 h2
    intro ev hev
    rw [← h1] at hev
    simp at hev
  | succ f ih =>
    intro idx s evs msg heq
    rw [loopCycles] at heq
    cases h0 : env.nodeFail idx with
    | some m =>
      rw [h0] at heq
      dsimp only at heq
      injection heq with h1 h2
      intro ev hev
      rw [← h1] at hev
      simp at hev
    | none =>
      rw [h0] at heq
      dsimp only at heq
      cases h1 : env.nodeFail (idx + 1) with
      | some m =>
        rw [h1] at heq
        dsimp only at heq
        injection heq with ha hb
        intro ev hev
        rw [← ha] at hev
        simp only [List.mem_singleton] at hev
        subst hev
        simp
      | none =>
        rw [h1] at heq
        dsimp only at heq
        cases h2 : env.nodeFail (idx + 2) with
        | some m =>
          rw [h2] at heq
          dsimp only at heq
          injection heq with ha hb
          intro ev hev
          rw [← ha] at hev
          simp only [List.mem_cons, List.not_mem_nil, or_false] at hev
          rcases hev with hev | hev <;> (subst hev; simp)
        | none =>
          rw [h2] at heq
          dsimp only at heq
          by_cases hdone : maxLoops ≤ (reflect_node (env.reflect (idx + 2)).1
              (env.reflect (idx + 2)).2 (summarize_node (env.summarize (idx + 1)).1
                (env.summarize (idx + 1)).2
                (web_research_node (env.search idx) s))).research_loop_count
          · rw [if_pos hdone] at heq
            injection heq with ha hb
            exact absurd hb (by simp)
          · rw [if_neg hdone] at heq
            injection heq with ha hb
            have hsplit : loopCycles env maxLoops f (idx + 3)
                (reflect_node (env.reflect (idx + 2)).1 (env.reflect (idx + 2)).2
                  (summarize_node (env.summarize (idx + 1)).1
                    (env.summarize (idx + 1)).2
                    (web_research_node (env.search idx) s)))
                = ((loopCycles env maxLoops f (idx + 3)
                    (reflect_node (env.reflect (idx + 2)).1 (env.reflect (idx + 2)).2
                      (summarize_node (env.summarize (idx + 1)).1
                        (env.summarize (idx + 1)).2
                        (web_research_node (env.search idx) s)))).1,
                   RunEnd.failure msg) := by
              rw [← hb]
            have hrest := ih (idx + 3) _ _ msg hsplit
            intro ev hev
            rw [← ha] at hev
            rcases List.mem_append.1 hev with h | h
            · simp only [List.mem_cons, List.not_mem_nil, or_false] at h
              rcases h with h | h | h <;> (subst h; simp)
            · exact hrest ev h

theorem loopCycles_success_shape (env : Env) (maxLoops : Nat) :
    ∀ (f idx : Nat) (s : SummaryState) (evs : List StepEv) (out : FinalOutput),
      loopCycles env maxLoops f idx s = (evs, RunEnd.success out) →
      ∃ evs0 sF, evs = evs0 ++ [(Stage.finalize_summary, sF)] ∧
        (∀ ev ∈ evs0, ev.1 ≠ Stage.finalize_summary) ∧
        out = { running_summary := sF.running_summary,
                sources_gathered := sF.sources_gathered } := by
  intro f
  induction f with
  | zero =>
    intro idx s evs out heq
    rw [loopCycles] at heq
    injection heq with h1 h2
    exact absurd h2 (by simp)
  | succ f ih =>
    intro idx s evs out heq
    rw [loopCycles] at heq
    cases h0 : env.nodeFail idx with
    | some m =>
      rw [h0] at heq
      dsimp only at heq
      injection heq with h1 h2
      exact absurd h2 (by simp)
    | none =>
      rw [h0] at heq
      dsimp only at heq
      cases h1 : env.nodeFail (idx + 1) with
      | some m =>
        rw [h1] at heq
        dsimp only at heq
        injection heq with ha hb
        exact absurd hb (by simp)
      | none =>
        rw [h1] at heq
        dsimp only at heq
        cases h2 : env.nodeFail (idx + 2) with
        | some m =>
          rw [h2] at heq
          dsimp only at heq
          injection heq with ha hb
          exact absurd hb (by simp)
        | none =>
          rw [h2] at heq
          dsimp only at heq
          by_cases hdone : maxLoops ≤ (reflect_node (env.reflect (idx + 2)).1
              (env.reflect (idx + 2)).2 (summarize_node (env.summarize (idx + 1)).1
                (env.summarize (idx + 1)).2
                (web_research_node (env.search idx) s))).research_loop_count
          · rw [if_pos hdone] at heq
            injection heq with ha hb
            injection hb with hout
            refine ⟨_, _, ha.symm, ?_, ?_⟩
            · intro ev hev
              simp only [List.mem_cons, List.not_mem_nil, or_false] at hev
              rcases hev with hev | hev | hev <;> (subst hev; simp)
            · rw [← hout]
              rfl
          · rw [if_neg hdone] at heq
            injection heq with ha hb
            have hsplit : loopCycles env maxLoops f (idx + 3)
                (reflect_node (env.reflect (idx + 2)).1 (env.reflect (idx + 2)).2
                  (summarize_node (env.summarize (idx + 1)).1
                    (env.summarize (idx + 1)).2
                    (web_research_node (env.search idx) s)))
                = ((loopCycles env maxLoops f (idx + 3)
                    (reflect_node (env.reflect (idx + 2)).1 (env.reflect (idx + 2)).2
                      (summarize_node (env.summarize (idx + 1)).1
                        (env.summarize (idx + 1)).2
                        (web_research_node (env.search idx) s)))).1,
                   RunEnd.success out) := by
              rw [← hb]
            obtain ⟨evs0, sF, hshape, hnofin, hout⟩ := ih (idx + 3) _ _ out hsplit
            refine ⟨[(Stage.web_research, web_research_node (env.search idx) s),
              (Stage.summarize_sources, summarize_node (env.summarize (idx + 1)).1
                (env.summarize (idx + 1)).2 (web_research_node (env.search idx) s)),
              (Stage.reflect_on_summary, reflect_node (env.reflect (idx + 2)).1
                (env.reflect (idx + 2)).2 (summarize_node (env.summarize (idx + 1)).1
                  (env.summarize (idx + 1)).2
                  (web_research_node (env.search idx) s)))] ++ evs0,
              sF, ?_, ?_, hout⟩
            · rw [← ha, hshape, List.append_assoc]
            · intro ev hev
              rcases List.mem_append.1 hev with h | h
              · simp only [List.mem_cons, List.not_mem_nil, or_false] at h
                rcases h with h | h | h <;> (subst h; simp)
              · exact hnofin ev h

/-- Claim C8: a run's event sequence is a finite list produced in node
order with every stage drawn from the five node names; a successful run's
final event is the finalize_summary event carrying the Finalizer's output,
which the consumer stores as the research result with status "complete";
and on a provider failure the sequence contains no finalize_summary event
and the consumer surfaces the error message out-of-band (status "error")
with no result. -/
theorem c8_event_stream_lifecycle :
    ∀ (env : Env) (maxLoops : Nat) (topic : String),
      (∀ ev ∈ (runResearch env maxLoops topic).1,
        ev.1 = Stage.generate_query ∨ ev.1 = Stage.web_research ∨
        ev.1 = Stage.summarize_sources ∨ ev.1 = Stage.reflect_on_summary ∨
        ev.1 = Stage.finalize_summary) ∧
      (∀ out, (runResearch env maxLoops topic).2 = RunEnd.success out →
        ∃ sF, (runResearch env maxLoops topic).1.getLast?
            = some (Stage.finalize_summary, sF) ∧
          out = { running_summary := sF.running_summary,
                  sources_gathered := sF.sources_gathered } ∧
          processRun (runResearch env maxLoops topic).1
              (runResearch env maxLoops topic).2
            = { steps := (processChunks (runResearch env maxLoops topic).1).1,
                research_result := some out,
                research_status := "complete",
                error_message := none }) ∧
      (∀ msg, (runResearch env maxLoops topic).2 = RunEnd.failure msg →
        (∀ ev ∈ (runResearch env maxLoops topic).1,
          ev.1 ≠ Stage.finalize_summary) ∧
        processRun (runResearch env maxLoops topic).1
            (runResearch env maxLoops topic).2
          = { steps := (processChunks (runResearch env maxLoops topic).1).1,
              research_result := none,
              research_status := "error",
              error_message := some msg }) := by
  intro env maxLoops topic
  refine ⟨?_, ?_, ?_⟩
  · intro ev hev
    rcases ev with ⟨st, d⟩
    cases st <;> simp
  · intro out hsucc
    cases h0 : env.nodeFail 0 with
    | some m =>
      rw [runResearch, h0] at hsucc
      dsimp only at hsucc
      exact absurd hsucc (by simp)
    | none =>
      have hrr : runResearch env maxLoops topic
          = ((Stage.generate_query, generate_query_node (env.genQuery topic).1
                (env.genQuery topic).2 (initState topic))
              :: (loopCycles env maxLoops maxLoops 1
                (generate_query_node (env.genQuery topic).1 (env.genQuery topic).2
                  (initState topic))).1,
             (loopCycles env maxLoops maxLoops 1
                (generate_query_node (env.genQuery topic).1 (env.genQuery topic).2
                  (initState topic))).2) := by
        rw [runResearch, h0]
      rw [hrr] at hsucc ⊢
      dsimp only at hsucc ⊢
      have hsplit : loopCycles env maxLoops maxLoops 1
          (generate_query_node (env.genQuery topic).1 (env.genQuery topic).2
            (initState topic))
          = ((loopCycles env maxLoops maxLoops 1
              (generate_query_node (env.genQuery topic).1 (env.genQuery topic).2
                (initState topic))).1, RunEnd.success out) := by
        rw [← hsucc]
      obtain ⟨evs0, sF, hshape, hnofin, hout⟩ :=
        loopCycles_success_shape env maxLoops maxLoops 1 _ _ out hsplit
      refine ⟨sF, ?_, hout, ?_⟩
      · rw [hshape, ← List.cons_append, List.getLast?_concat]
      · rw [hsucc]
        dsimp only [processRun]
        rw [hshape, ← List.cons_append, processChunks_concat_final, ← hout]
  · intro msg hfailed
    cases h0 : env.nodeFail 0 with
    | some m =>
      have hrr : runResearch env maxLoops topic = ([], RunEnd.failure m) := by
        rw [runResearch, h0]
      rw [hrr] at hfailed ⊢
      dsimp only at hfailed
      injection hfailed with hm
      subst hm
      exact ⟨by intro ev hev; simp at hev, rfl⟩
    | none =>
      have hrr : runResearch env maxLoops topic
          = ((Stage.generate_query, generate_query_node (env.genQuery topic).1
                (env.genQuery topic).2 (initState topic))
              :: (loopCycles env maxLoops maxLoops 1
                (generate_query_node (env.genQuery topic).1 (env.genQuery topic).2
                  (initState topic))).1,
             (loopCycles env maxLoops maxLoops 1
                (generate_query_node (env.genQuery topic).1 (env.genQuery topic).2
                  (initState topic))).2) := by
        rw [runResearch, h0]
      rw [hrr] at hfailed ⊢
      dsimp only at hfailed ⊢
      have hsplit : loopCycles env maxLoops maxLoops 1
          (generate_query_node (env.genQuery topic).1 (env.genQuery topic).2
            (initState topic))
          = ((loopCycles env maxLoops maxLoops 1
              (generate_query_node (env.genQuery topic).1 (env.genQuery topic).2
                (initState topic))).1, RunEnd.failure msg) := by
        rw [← hfailed]
      have hnofin := loopCycles_failure_no_finalize env maxLoops maxLoops 1 _ _
        msg hsplit
      refine ⟨?_, ?_⟩
      · intro ev hev
        rcases List.mem_cons.1 hev with h | h
        · subst h; simp
        · exact hnofin ev h
      · rw [hfailed]
        rfl

/-- Witness for claim C8: the successful demo run's last event is the
finalize_summary event, and the failing demo run surfaces its provider
error message with status "error" and no finalize event. -/
theorem c8_event_stream_lifecycle_witness :
    ((runResearch demoEnv 1 "t").1.getLast?).map Prod.fst
        = some Stage.finalize_summary ∧
    (processRun (runResearch failEnv 1 "t").1
        (runResearch failEnv 1 "t").2).research_status = "error" ∧
    (processRun (runResearch failEnv 1 "t").1
        (runResearch failEnv 1 "t").2).error_message = some "boom" := by
  refine ⟨?_, ?_, ?_⟩
  · obtain ⟨sF, hlast, hout, hproc⟩ := (c8_event_stream_lifecycle demoEnv 1 "t").2.1
      (endOutput (runResearch demoEnv 1 "t").2) rfl
    rw [hlast]
    rfl
  · obtain ⟨hnofin, hproc⟩ := (c8_event_stream_lifecycle failEnv 1 "t").2.2
      "boom" rfl
    rw [hproc]
  · obtain ⟨hnofin, hproc⟩ := (c8_event_stream_lifecycle failEnv 1 "t").2.2
      "boom" rfl
    rw [hproc]

end DeepResearch
